import Mathlib

/-!
Verification of the Simple Excel Card App (script.js) core:
the search/filter engine, the localStorage/IndexedDB persistence layer
with its 30-day expiry policy, the column-selection confirmation step,
and the paginated card renderer.

The JavaScript source is shallowly embedded: rows are association lists
of string fields, browser storage (the IndexedDB bulk tier plus the two
localStorage metadata keys) is an explicit record threaded through the
operations, and fallible writes are modelled with explicit success flags.
String primitives (`trim`, `toLowerCase`, `includes`, `parseInt`,
`JSON.parse`/`JSON.stringify`) are embedded as structurally recursive
character-list functions so that every definition is kernel-evaluable.
-/

namespace ExcelCard

/-- A spreadsheet row as produced by `XLSX.utils.sheet_to_json` with
`defval: ''`: a mapping from column name to (stringified) cell value. -/
abbrev Row := List (String × String)

/-- Embeds the JS expression `String(row[field] || '')`: the cell value of
`field` in `row`, defaulting to the empty string when the key is absent. -/
def getField (row : Row) (field : String) : String :=
  match row.lookup field with
  | some v => v
  | none => ""

/-- Holds (`prefixOfL a b`) exactly when the char list `a` is a prefix of `b`. -/
def prefixOfL : List Char → List Char → Bool
  | [], _ => true
  | _ :: _, [] => false
  | a :: as, b :: bs => a == b && prefixOfL as bs

/-- Holds (`containsL needle hay`) exactly when `needle` occurs contiguously inside
`hay`; embeds JS `hay.includes(needle)` at the character-list level. -/
def containsL (needle : List Char) : List Char → Bool
  | [] => needle.isEmpty
  | c :: rest => prefixOfL needle (c :: rest) || containsL needle rest

/-- Embeds JS `hay.includes(needle)` on strings. -/
def strIncludes (hay needle : String) : Bool :=
  containsL needle.data hay.data

/-- Embeds JS `s.toLowerCase()` (ASCII case mapping, as `Char.toLower`). -/
def strToLower (s : String) : String :=
  String.mk (s.data.map Char.toLower)

/-- Drops leading and trailing whitespace from a character list. -/
def trimL (cs : List Char) : List Char :=
  ((cs.dropWhile Char.isWhitespace).reverse.dropWhile Char.isWhitespace).reverse

/-- Embeds JS `s.trim()`. -/
def strTrim (s : String) : String :=
  String.mk (trimL s.data)

/-! ### Search & Filter Engine -/

/-- Embeds `searchData(data, searchTerm, searchField)` from the script
(the scope-driven search engine), with the module-level `selectedFields`
made an explicit argument. An empty trimmed term returns the data
unfiltered; `searchField = "all"` searches every selected field, any other
scope searches only that field; matching lowercases both sides and tests
substring containment. -/
def searchData (selectedFields : List String) (data : List Row)
    (searchTerm : String) (searchField : String) : List Row :=
  if (strTrim searchTerm).data.isEmpty then data
  else
    let searchTermLower := strToLower searchTerm
    data.filter fun item =>
      if searchField = "all" then
        selectedFields.any fun field =>
          strIncludes (strToLower (getField item field)) searchTermLower
      else
        strIncludes (strToLower (getField item searchField)) searchTermLower

/-- The spec's matching rule, stated in its own words: case-insensitive
substring containment of the term (after trimming its leading/trailing
whitespace) within the stringified cell value. Used to compare the
implementation against the specification. -/
def specMatches (value term : String) : Bool :=
  strIncludes (strToLower value) (strToLower (strTrim term))

/-- The spec's row-matching rule: with scope `"all"` a row matches when ANY
field of the field selection contains the term; with a specific-field scope
it matches exactly when that field's value contains the term. -/
def specMatchRow (fields : List String) (term : String) (scope : String)
    (row : Row) : Bool :=
  if scope = "all" then
    fields.any fun f => specMatches (getField row f) term
  else
    specMatches (getField row scope) term

/-! ### Expiry Policy and parseInt -/

/-- Constant `EXPIRY_DAYS` from the script. -/
def EXPIRY_DAYS : Nat := 30

/-- The retention window in milliseconds:
`EXPIRY_DAYS * 24 * 60 * 60 * 1000`. -/
def expiryMillis : Nat := EXPIRY_DAYS * 24 * 60 * 60 * 1000

/-- Numeric value of a decimal digit character. -/
def digitToNat (c : Char) : Nat := c.toNat - 48

/-- Folds the longest leading run of decimal digits into a number,
starting from an already-parsed accumulator. -/
def leadingDigitsAux (acc : Nat) : List Char → Nat
  | [] => acc
  | c :: rest =>
    if c.isDigit then leadingDigitsAux (10 * acc + digitToNat c) rest else acc

/-- Embeds JS `parseInt(s, 10)` on the strings this program stores
(non-negative decimal numerals, or arbitrary garbage): parses the longest
leading digit run, and returns `none` (JS `NaN`) when the string does not
start with a digit. Sign and leading-whitespace handling are not needed by
this program and are not modelled. -/
def parseIntJS (s : String) : Option Nat :=
  match s.data with
  | [] => none
  | c :: rest =>
    if c.isDigit then some (leadingDigitsAux (digitToNat c) rest) else none

/-! ### Durable Store state -/

/-- The browser storage visible to the app: the IndexedDB bulk tier under
`FILE_KEY`, and the two localStorage metadata keys `CONFIG_KEY` (the
JSON-serialized field selection) and `EXPIRY_KEY` (the stringified expiry
timestamp). `none` means the key is absent. -/
structure AppStorage where
  db : Option (List Row)
  config : Option String
  expiry : Option String
deriving DecidableEq

/-- Embeds `setExpiry()`: writes `now + EXPIRY_DAYS*24*60*60*1000` (as its
decimal string, since localStorage stores strings) under `EXPIRY_KEY`. -/
def setExpiry (now : Nat) (st : AppStorage) : AppStorage :=
  { st with expiry := some (Nat.repr (now + expiryMillis)) }

/-- Embeds `checkExpiry()`: if `EXPIRY_KEY` holds a truthy (non-empty)
string and `Date.now() > parseInt(expiry, 10)`, clears the IndexedDB tier
and removes both metadata keys and reports `true`; otherwise reports
`false` and leaves storage untouched. A `NaN` parse makes the comparison
false, exactly as `now > NaN` is false in JS. -/
def checkExpiry (st : AppStorage) (now : Nat) : Bool × AppStorage :=
  match st.expiry with
  | none => (false, st)
  | some s =>
    if s.data.isEmpty then (false, st)
    else
      match parseIntJS s with
      | none => (false, st)
      | some e =>
        if e < now then (true, ⟨none, none, none⟩) else (false, st)

/-! ### JSON codec for the field-selection metadata -/

/-- One character of `JSON.stringify` string-literal output. Quotes and
backslashes are escaped; the control-character escapes the program never
produces for column names are not modelled. -/
def escChar (c : Char) : List Char :=
  if c = '"' then ['\\', '"']
  else if c = '\\' then ['\\', '\\']
  else [c]

/-- A column name as a JSON string literal (character list). -/
def quoteField (f : String) : List Char :=
  '"' :: (f.data.map escChar).flatten ++ ['"']

/-- Embeds `JSON.stringify(fields)` for a list of column names. -/
def stringifyFields (fs : List String) : String :=
  String.mk ('[' :: (List.intercalate [','] (fs.map quoteField)) ++ [']'])

/-- Decodes one JSON escape character. -/
def unescChar (e : Char) : Option Char :=
  if e = '"' then some '"'
  else if e = '\\' then some '\\'
  else if e = '/' then some '/'
  else if e = 'n' then some '\n'
  else if e = 't' then some '\t'
  else if e = 'r' then some '\r'
  else none

/-- Parses the body of a JSON string literal after its opening quote,
returning the decoded characters and the remainder after the closing
quote; `none` when the literal is malformed. -/
def parseLit : List Char → Option (List Char × List Char)
  | [] => none
  | c :: rest =>
    if c = '"' then some ([], rest)
    else if c = '\\' then
      match rest with
      | [] => none
      | e :: rest2 =>
        match unescChar e, parseLit rest2 with
        | some d, some (body, rem) => some (d :: body, rem)
        | _, _ => none
    else
      match parseLit rest with
      | some (body, rem) => some (c :: body, rem)
      | none => none

/-- Parses the comma-separated items of a non-empty JSON string array,
after the opening `[`, through the closing `]`. Fuelled recursion; the
fuel is sized from the input length at the call site. -/
def parseItems : Nat → List Char → Option (List String × List Char)
  | 0, _ => none
  | fuel + 1, cs =>
    match cs with
    | '"' :: rest =>
      (match parseLit rest with
       | none => none
       | some (body, rem) =>
         match rem with
         | ']' :: rem2 => some ([String.mk body], rem2)
         | ',' :: rem2 =>
           (match parseItems fuel rem2 with
            | some (more, rem3) => some (String.mk body :: more, rem3)
            | none => none)
         | _ => none)
    | _ => none

/-- Embeds `JSON.parse` as the program uses it on `CONFIG_KEY`: the stored
value is meaningful only when it decodes to an array of strings, so the
parser accepts exactly JSON arrays of (escape-simple) string literals and
returns `none` (a thrown `SyntaxError`, or a shape the program cannot use
as a field list) on anything else. -/
def jsonParseFields (s : String) : Option (List String) :=
  match s.data with
  | '[' :: ']' :: rest => if rest.isEmpty then some [] else none
  | '[' :: rest =>
    (match parseItems (rest.length + 1) rest with
     | some (fs, rem) => if rem.isEmpty then some fs else none
     | none => none)
  | _ => none

/-! ### Durable Store operations -/

/-- The Persistence Record returned by a successful load: the bulk dataset
and the decoded field selection. -/
structure PersistRecord where
  data : List Row
  fields : List String
deriving DecidableEq

/-- Embeds `saveExcelToDB(data)`: a `put` of the dataset under `FILE_KEY`
inside one IndexedDB transaction. `bulkOk` is the outcome of the
transaction: on failure the transaction aborts and the tier is unchanged,
and the promise rejection propagates as a `false` flag. -/
def saveExcelToDB (bulkOk : Bool) (st : AppStorage) (data : List Row) :
    Bool × AppStorage :=
  if bulkOk then (true, { st with db := some data }) else (false, st)

/-- Embeds `saveToStorage(data, fields)`: awaits the bulk IndexedDB write
first, and only after it succeeds writes `CONFIG_KEY` (the JSON field
selection) and `EXPIRY_KEY` (via `setExpiry`). `bulkOk` models the
IndexedDB medium accepting the write, `lsOk` the localStorage medium
(a rejected `setItem` throws before either metadata key is updated).
Returns the success flag and the post-state. -/
def saveToStorage (bulkOk lsOk : Bool) (st : AppStorage) (data : List Row)
    (fields : List String) (now : Nat) : Bool × AppStorage :=
  match saveExcelToDB bulkOk st data with
  | (false, st1) => (false, st1)
  | (true, st1) =>
    if lsOk then
      (true, setExpiry now { st1 with config := some (stringifyFields fields) })
    else (false, st1)

/-- Embeds `loadFromStorage()`: first evaluates `checkExpiry` (which may
purge); when not expired, reads `CONFIG_KEY` and the IndexedDB tier, and
only when both are present (truthy) decodes the config, returning `null`
— without purging — when `JSON.parse` throws. -/
def loadFromStorage (st : AppStorage) (now : Nat) :
    Option PersistRecord × AppStorage :=
  match checkExpiry st now with
  | (true, st1) => (none, st1)
  | (false, st1) =>
    match st1.config, st1.db with
    | some cfg, some data =>
      if cfg.data.isEmpty then (none, st1)
      else
        match jsonParseFields cfg with
        | some fields => (some ⟨data, fields⟩, st1)
        | none => (none, st1)
    | _, _ => (none, st1)

/-! ### Column Selection Stage -/

/-- The in-memory session state the confirmation handler touches: the
module-level `selectedFields`, and whether the UI has transitioned to
display mode (column section hidden, search section shown). -/
structure Session where
  selectedFields : List String
  displayMode : Bool
deriving DecidableEq

/-- Outcome of the save-columns click handler. -/
inductive ConfirmResult where
  | validationFailure
  | storageFailure
  | ok
deriving DecidableEq

/-- Embeds the `saveColumnsBtn` click handler: an empty checked set alerts
and returns before anything else happens; otherwise `selectedFields` is
assigned, `saveToStorage` runs, a storage rejection alerts and returns
before the UI transition, and on success the session enters display mode. -/
def confirmSelection (checked : List String) (bulkOk lsOk : Bool)
    (now : Nat) (sess : Session) (st : AppStorage) (data : List Row) :
    ConfirmResult × Session × AppStorage :=
  if checked.isEmpty then (.validationFailure, sess, st)
  else
    let sess1 := { sess with selectedFields := checked }
    match saveToStorage bulkOk lsOk st data checked now with
    | (false, st1) => (.storageFailure, sess1, st1)
    | (true, st1) => (.ok, { sess1 with displayMode := true }, st1)

/-! ### Incremental Card Renderer -/

/-- Constant `CARDS_PER_PAGE` from the script. -/
def CARDS_PER_PAGE : Nat := 30

/-- Constant `CHUNK_SIZE` from the script; the cooperative chunk loop attaches the
page in bursts of this many cards but always finishes with the whole page
attached, so the embedding collapses the chunks. -/
def CHUNK_SIZE : Nat := 10

/-- The module-level renderer state: `lastMatches`, `lastFields`,
`lastSearchTerm` and the pagination cursor `currentPage`. -/
structure RenderState where
  lastMatches : List Row
  lastFields : List String
  lastSearchTerm : String
  currentPage : Nat
deriving DecidableEq

/-- What one `renderCardsPage()` call leaves on screen: the rows rendered
as cards (in order), and whether the Load More button is attached. -/
structure PageOut where
  cards : List Row
  loadMore : Bool
deriving DecidableEq

/-- What a `renderCards()` call leaves on screen: the cards, the Load More
button, and the no-matches indicator. -/
structure CardsView where
  cards : List Row
  loadMore : Bool
  noMatchesShown : Bool
deriving DecidableEq

/-- Embeds `renderCardsPage()`: clears the card section, renders
`lastMatches.slice(0, currentPage * CARDS_PER_PAGE)` (chunk loop
collapsed), and attaches the Load More button exactly when
`lastMatches.length > end`. -/
def renderCardsPage (st : RenderState) : PageOut :=
  let e := st.currentPage * CARDS_PER_PAGE
  { cards := st.lastMatches.take e
    loadMore := decide (st.lastMatches.length > e) }

/-- Embeds one activation of the Load More button: increments
`currentPage` and re-renders the page cumulatively from the start. -/
def loadMoreClick (st : RenderState) : RenderState × PageOut :=
  let st1 := { st with currentPage := st.currentPage + 1 }
  (st1, renderCardsPage st1)

/-- Embeds `isRegistrationField(fieldName)`. -/
def isRegistrationField (fieldName : String) : Bool :=
  strIncludes (strToLower fieldName) "registratio"

/-- The match set `renderCards` computes: when the lowercased, trimmed
term is non-empty and some selected field is a registration field, the
data filtered over those registration fields; otherwise the data itself. -/
def renderMatches (data : List Row) (fields : List String)
    (searchTerm : String) : List Row :=
  let term := strTrim (strToLower searchTerm)
  let regFields := fields.filter isRegistrationField
  if !term.data.isEmpty && !regFields.isEmpty then
    data.filter fun row =>
      regFields.any fun field =>
        strIncludes (strToLower (getField row field)) term
  else data

/-- Embeds `renderCards(data, fields, searchTerm)`: clears the card
section and the Load More button, computes the match set, and on an empty
match set shows the no-matches indicator and returns early — leaving
`lastMatches`/`currentPage` untouched; otherwise stores the match set,
resets `currentPage` to 1 and renders the first page. -/
def renderCards (data : List Row) (fields : List String)
    (searchTerm : String) (st : RenderState) : RenderState × CardsView :=
  let matchSet := renderMatches data fields searchTerm
  if matchSet.isEmpty then
    (st, { cards := [], loadMore := false, noMatchesShown := true })
  else
    let st1 : RenderState :=
      { lastMatches := matchSet, lastFields := fields,
        lastSearchTerm := searchTerm, currentPage := 1 }
    let page := renderCardsPage st1
    (st1, { cards := page.cards, loadMore := page.loadMore,
            noMatchesShown := false })

/-! ### Decimal printing inverts decimal parsing

`setExpiry` stores `Nat.repr` output and `checkExpiry` reads it back
through `parseIntJS`; the lemmas below show the two compose to the
identity, by characterising `Nat.toDigits` through the fuel-free
recursion `digitsOf`. -/

/-- The decimal digit characters of `n`, most significant first. -/
def digitsOf (n : Nat) : List Char :=
  if n < 10 then [Nat.digitChar n]
  else digitsOf (n / 10) ++ [Nat.digitChar (n % 10)]
decreasing_by exact Nat.div_lt_self (by omega) (by omega)

theorem digitChar_spec (d : Nat) (hd : d < 10) :
    (Nat.digitChar d).isDigit = true ∧ digitToNat (Nat.digitChar d) = d := by
  interval_cases d <;> exact ⟨by decide, by decide⟩

theorem toDigitsCore_eq_digitsOf (fuel : Nat) :
    ∀ n ds, n < fuel → Nat.toDigitsCore 10 fuel n ds = digitsOf n ++ ds := by
  induction fuel with
  | zero => intro n ds h; omega
  | succ fuel ih =>
    intro n ds h
    simp only [Nat.toDigitsCore]
    by_cases h10 : n / 10 = 0
    · have hn : n < 10 := by omega
      rw [if_pos h10, digitsOf, if_pos hn, Nat.mod_eq_of_lt hn]
      rfl
    · have hn : ¬ n < 10 := by omega
      have hdiv : n / 10 < fuel := by
        have h2 : n / 10 < n := Nat.div_lt_self (by omega) (by omega)
        omega
      rw [if_neg h10, ih (n / 10) _ hdiv]
      conv_rhs => rw [digitsOf, if_neg hn]
      rw [List.append_assoc]
      rfl

theorem toDigits_eq_digitsOf (n : Nat) : Nat.toDigits 10 n = digitsOf n := by
  rw [Nat.toDigits, toDigitsCore_eq_digitsOf (n + 1) n [] (Nat.lt_succ_self n),
    List.append_nil]

theorem digitsOf_all_digits (n : Nat) :
    ∀ c ∈ digitsOf n, c.isDigit = true := by
  induction n using Nat.strong_induction_on with
  | _ n ih =>
    rw [digitsOf]
    by_cases hn : n < 10
    · rw [if_pos hn]
      intro c hc
      rw [List.mem_singleton] at hc
      subst hc
      exact (digitChar_spec n hn).1
    · rw [if_neg hn]
      intro c hc
      rcases List.mem_append.mp hc with h | h
      · exact ih (n / 10) (Nat.div_lt_self (by omega) (by omega)) c h
      · rw [List.mem_singleton] at h
        subst h
        exact (digitChar_spec (n % 10) (Nat.mod_lt _ (by omega))).1

theorem digitsOf_ne_nil (n : Nat) : digitsOf n ≠ [] := by
  rw [digitsOf]
  by_cases hn : n < 10
  · simp [hn]
  · simp [hn]

theorem leadingDigitsAux_append (l1 l2 : List Char) :
    ∀ acc, (∀ c ∈ l1, c.isDigit = true) →
      leadingDigitsAux acc (l1 ++ l2) =
        leadingDigitsAux (leadingDigitsAux acc l1) l2 := by
  induction l1 with
  | nil => intro acc _; rfl
  | cons c cs ih =>
    intro acc hdig
    have hc : c.isDigit = true := hdig c (List.mem_cons_self c cs)
    simp only [List.cons_append, leadingDigitsAux, hc, if_true]
    exact ih _ fun d hd => hdig d (List.mem_cons_of_mem c hd)

theorem leadingDigitsAux_digitsOf (n : Nat) :
    ∀ acc, leadingDigitsAux acc (digitsOf n) =
      acc * 10 ^ (digitsOf n).length + n := by
  induction n using Nat.strong_induction_on with
  | _ n ih =>
    intro acc
    rw [digitsOf]
    by_cases hn : n < 10
    · rw [if_pos hn]
      simp only [leadingDigitsAux, (digitChar_spec n hn).1, if_true,
        (digitChar_spec n hn).2, List.length_singleton, pow_one]
      omega
    · rw [if_neg hn]
      have hmod : (Nat.digitChar (n % 10)).isDigit = true :=
        (digitChar_spec (n % 10) (Nat.mod_lt _ (by omega))).1
      rw [leadingDigitsAux_append _ _ acc (digitsOf_all_digits (n / 10))]
      simp only [leadingDigitsAux, hmod, if_true,
        (digitChar_spec (n % 10) (Nat.mod_lt _ (by omega))).2,
        ih (n / 10) (Nat.div_lt_self (by omega) (by omega)) acc,
        List.length_append, List.length_singleton, pow_succ]
      have hdm := Nat.div_add_mod n 10
      generalize (10 : Nat) ^ (digitsOf (n / 10)).length = K
      have hK : acc * (K * 10) = 10 * (acc * K) := by ring
      rw [hK]
      omega

/-- Reading back a stored `Nat.repr` through JS `parseInt` recovers the
number. -/
theorem parseIntJS_repr (n : Nat) : parseIntJS (Nat.repr n) = some n := by
  have hd : (Nat.repr n).data = digitsOf n := by
    rw [Nat.repr, toDigits_eq_digitsOf]
    rfl
  cases h : digitsOf n with
  | nil => exact absurd h (digitsOf_ne_nil n)
  | cons c rest =>
    have hc : c.isDigit = true := by
      apply digitsOf_all_digits n
      rw [h]
      exact List.mem_cons_self c rest
    have hfold : leadingDigitsAux 0 (digitsOf n) = n := by
      rw [leadingDigitsAux_digitsOf n 0]
      omega
    rw [h] at hfold
    simp only [leadingDigitsAux, hc, if_true] at hfold
    rw [parseIntJS, hd, h]
    simp only [hc, if_true]
    rw [show 10 * 0 + digitToNat c = digitToNat c by omega] at hfold
    rw [hfold]

/-- A stored `Nat.repr` is a non-empty (truthy) localStorage value. -/
theorem repr_data_ne_nil (n : Nat) : (Nat.repr n).data ≠ [] := by
  have hd : (Nat.repr n).data = digitsOf n := by
    rw [Nat.repr, toDigits_eq_digitsOf]
    rfl
  rw [hd]
  exact digitsOf_ne_nil n

/-! ### Helper lemmas about the storage operations -/

theorem data_isEmpty_false {s : String} (h : s.data ≠ []) :
    s.data.isEmpty = false :=
  List.isEmpty_eq_false.mpr h

theorem string_ne_of_data_ne {s : String} (h : s ≠ "") : s.data ≠ [] := by
  intro h0
  apply h
  cases s
  simp only at h0
  rw [h0]

theorem parseIntJS_some_ne_nil {s : String} {e : Nat}
    (h : parseIntJS s = some e) : s.data ≠ [] := by
  intro h0
  rw [parseIntJS, h0] at h
  exact Option.noConfusion h

/-- An expired, parseable expiry entry makes `checkExpiry` purge all three
tiers and report `true`. -/
theorem checkExpiry_expired (st : AppStorage) (now : Nat) (s : String)
    (e : Nat) (hs : st.expiry = some s) (hp : parseIntJS s = some e)
    (hlt : e < now) : checkExpiry st now = (true, ⟨none, none, none⟩) := by
  have hie : s.data.isEmpty = false :=
    data_isEmpty_false (parseIntJS_some_ne_nil hp)
  simp [checkExpiry, hs, hie, hp, hlt]

/-- Running `checkExpiry` either leaves storage untouched or purges everything. -/
theorem checkExpiry_snd (st : AppStorage) (now : Nat) :
    (checkExpiry st now).2 = st ∨
      (checkExpiry st now).2 = (⟨none, none, none⟩ : AppStorage) := by
  unfold checkExpiry
  split
  · exact Or.inl rfl
  · split
    · exact Or.inl rfl
    · split
      · exact Or.inl rfl
      · split
        · exact Or.inr rfl
        · exact Or.inl rfl

/-- A non-expired `checkExpiry` leaves storage untouched. -/
theorem checkExpiry_not_expired (st : AppStorage) (now : Nat)
    (h : (checkExpiry st now).1 = false) : checkExpiry st now = (false, st) := by
  rcases hs : st.expiry with _ | s
  · simp [checkExpiry, hs]
  · rcases hie : s.data.isEmpty with _ | _
    · rcases hp : parseIntJS s with _ | e
      · simp [checkExpiry, hs, hie, hp]
      · by_cases hlt : e < now
        · exfalso
          rw [checkExpiry_expired st now s e hs hp hlt] at h
          exact Bool.noConfusion h
        · simp [checkExpiry, hs, hie, hp, hlt]
    · simp [checkExpiry, hs, hie]

/-- A load never writes storage beyond what `checkExpiry` does. -/
theorem loadFromStorage_snd (st : AppStorage) (now : Nat) :
    (loadFromStorage st now).2 = (checkExpiry st now).2 := by
  unfold loadFromStorage
  rcases hc : checkExpiry st now with ⟨b, st1⟩
  cases b
  · dsimp only
    split
    · split
      · rfl
      · split <;> rfl
    · rfl
  · rfl

/-! ### Claims about the Expiry Policy and the Durable Store -/

/-- Claim C2: after a save at time `t`, the stored expiry timestamp is
exactly `t` plus 30 days (in milliseconds), written once by the save; the
expiry predicate reports expired exactly when the current time is strictly
greater than that stored timestamp — in particular one millisecond past
the boundary is expired and one millisecond before it is not — and a load
never rewrites (extends) the expiry tier: it leaves it unchanged or
removes it. -/
theorem expiry_boundary_exact (t now now2 : Nat) (st : AppStorage)
    (data : List Row) (fields : List String) :
    expiryMillis = 30 * 24 * 60 * 60 * 1000 ∧
    (saveToStorage true true st data fields t).2.expiry =
      some (Nat.repr (t + expiryMillis)) ∧
    (checkExpiry (saveToStorage true true st data fields t).2 now).1 =
      decide (t + expiryMillis < now) ∧
    (checkExpiry (saveToStorage true true st data fields t).2
      (t + expiryMillis + 1)).1 = true ∧
    (checkExpiry (saveToStorage true true st data fields t).2
      (t + expiryMillis - 1)).1 = false ∧
    ((loadFromStorage (saveToStorage true true st data fields t).2 now2).2.expiry
        = (saveToStorage true true st data fields t).2.expiry ∨
      (loadFromStorage (saveToStorage true true st data fields t).2 now2).2.expiry
        = none) := by
  have hsave : (saveToStorage true true st data fields t).2.expiry =
      some (Nat.repr (t + expiryMillis)) := rfl
  have hie : (Nat.repr (t + expiryMillis)).data.isEmpty = false :=
    data_isEmpty_false (repr_data_ne_nil _)
  have hchk : ∀ n : Nat,
      (checkExpiry (saveToStorage true true st data fields t).2 n).1 =
        decide (t + expiryMillis < n) := by
    intro n
    by_cases hlt : t + expiryMillis < n
    · simp [checkExpiry, hsave, hie, parseIntJS_repr, hlt]
    · simp [checkExpiry, hsave, hie, parseIntJS_repr, hlt]
  refine ⟨rfl, hsave, hchk now, ?_, ?_, ?_⟩
  · rw [hchk (t + expiryMillis + 1)]
    simp
  · rw [hchk (t + expiryMillis - 1)]
    simp [expiryMillis, EXPIRY_DAYS]
  · rw [loadFromStorage_snd]
    rcases checkExpiry_snd (saveToStorage true true st data fields t).2 now2
      with h1 | h1
    · exact Or.inl (congrArg AppStorage.expiry h1)
    · exact Or.inr (congrArg AppStorage.expiry h1)

/-- Claim C3: loading a stored record whose (parseable) expiry timestamp
lies strictly in the past returns "absent" and leaves all three tiers —
bulk dataset, field-selection metadata and expiry timestamp — empty. -/
theorem load_expired_purges_all (st : AppStorage) (now : Nat) (s : String)
    (e : Nat) (hs : st.expiry = some s) (hp : parseIntJS s = some e)
    (hpast : e < now) :
    loadFromStorage st now = (none, ⟨none, none, none⟩) := by
  rw [loadFromStorage, checkExpiry_expired st now s e hs hp hpast]

/-- Witness for C3 at a concrete expired store. -/
theorem load_expired_purges_all_witness :
    (⟨some [[("A", "1")]], some "[\x22A\x22]", some "100"⟩ :
        AppStorage).expiry = some "100" ∧
    parseIntJS "100" = some 100 ∧ (100 : Nat) < 101 ∧
    loadFromStorage (⟨some [[("A", "1")]], some "[\x22A\x22]", some "100"⟩ :
        AppStorage) 101 = (none, ⟨none, none, none⟩) :=
  ⟨rfl, by decide, by decide,
    load_expired_purges_all _ 101 "100" 100 rfl (by decide) (by decide)⟩

/-- Claim C4: the save writes the bulk tier first and the metadata tier
(field selection and expiry timestamp) only after the bulk write succeeds:
a fully successful save persists dataset and field selection together and
refreshes the expiry stamp, while a save whose bulk write is rejected
reports failure and leaves every previously persisted tier — in
particular the metadata tier — unchanged. -/
theorem save_tiered_commit (st : AppStorage) (data : List Row)
    (fields : List String) (now : Nat) (lsOk : Bool) :
    saveToStorage true true st data fields now =
      (true, ⟨some data, some (stringifyFields fields),
        some (Nat.repr (now + expiryMillis))⟩) ∧
    saveToStorage false lsOk st data fields now = (false, st) :=
  ⟨rfl, rfl⟩

/-- Claim C5: confirming an empty column selection is a validation
failure: no save runs, the store and the in-memory field selection are
unchanged, and the session does not enter display mode. Confirming a
non-empty selection (on a healthy medium) saves and enters display mode. -/
theorem confirm_selection_empty_vs_nonempty (checked : List String)
    (bulkOk lsOk : Bool) (now : Nat) (sess : Session) (st : AppStorage)
    (data : List Row) (hne : checked ≠ []) :
    confirmSelection [] bulkOk lsOk now sess st data =
      (.validationFailure, sess, st) ∧
    confirmSelection checked true true now sess st data =
      (.ok, ⟨checked, true⟩,
        ⟨some data, some (stringifyFields checked),
          some (Nat.repr (now + expiryMillis))⟩) := by
  constructor
  · rfl
  · unfold confirmSelection
    rw [if_neg]
    · rfl
    · simp [hne]

/-- Witness for C5 at a concrete selection. -/
theorem confirm_selection_empty_vs_nonempty_witness :
    (["Name"] : List String) ≠ [] ∧
    (confirmSelection [] true true 5 ⟨["Old"], false⟩
        ⟨none, none, none⟩ [] = (.validationFailure, ⟨["Old"], false⟩,
          ⟨none, none, none⟩) ∧
      confirmSelection ["Name"] true true 5 ⟨["Old"], false⟩
        ⟨none, none, none⟩ [] = (.ok, ⟨["Name"], true⟩,
          ⟨some [], some (stringifyFields ["Name"]),
            some (Nat.repr (5 + expiryMillis))⟩)) :=
  ⟨by decide, confirm_selection_empty_vs_nonempty ["Name"] true true 5
    ⟨["Old"], false⟩ ⟨none, none, none⟩ [] (by decide)⟩

theorem jsonParseFields_some_ne_nil {cfg : String} {fs : List String}
    (h : jsonParseFields cfg = some fs) : cfg.data ≠ [] := by
  intro h0
  rw [jsonParseFields, h0] at h
  exact Option.noConfusion h

/-- Claim C10: when the expiry entry is absent, or holds a string whose
integer parse is `NaN`, the expiry check reports not-expired and purges
nothing; a stored dataset and decodable field selection are then loaded
normally, at every current time. -/
theorem missing_or_nan_expiry_never_expires (st : AppStorage) (now : Nat)
    (h : st.expiry = none ∨ ∃ s, st.expiry = some s ∧ parseIntJS s = none) :
    checkExpiry st now = (false, st) ∧
    ∀ data cfg fields, st.db = some data → st.config = some cfg →
      jsonParseFields cfg = some fields →
      loadFromStorage st now = (some ⟨data, fields⟩, st) := by
  have hchk : checkExpiry st now = (false, st) := by
    rcases h with h | ⟨s, hs, hp⟩
    · simp [checkExpiry, h]
    · rcases hie : s.data.isEmpty with _ | _
      · simp [checkExpiry, hs, hie, hp]
      · simp [checkExpiry, hs, hie]
  refine ⟨hchk, ?_⟩
  intro data cfg fields hdb hcfg hparse
  have hie : cfg.data.isEmpty = false :=
    data_isEmpty_false (jsonParseFields_some_ne_nil hparse)
  rw [loadFromStorage, hchk]
  simp [hcfg, hdb, hie, hparse]

/-- Witness for C10 at a concrete store without an expiry entry. -/
theorem missing_or_nan_expiry_never_expires_witness :
    ((⟨some [[("A", "1")]], some "[\x22A\x22]", none⟩ :
        AppStorage).expiry = none ∨
      ∃ s, (⟨some [[("A", "1")]], some "[\x22A\x22]", none⟩ :
        AppStorage).expiry = some s ∧ parseIntJS s = none) ∧
    (checkExpiry (⟨some [[("A", "1")]], some "[\x22A\x22]", none⟩ :
        AppStorage) 7 = (false, ⟨some [[("A", "1")]], some "[\x22A\x22]", none⟩) ∧
      loadFromStorage (⟨some [[("A", "1")]], some "[\x22A\x22]", none⟩ :
          AppStorage) 7 =
        (some ⟨[[("A", "1")]], ["A"]⟩,
          ⟨some [[("A", "1")]], some "[\x22A\x22]", none⟩)) := by
  refine ⟨Or.inl rfl, (missing_or_nan_expiry_never_expires _ 7
    (Or.inl rfl)).1, (missing_or_nan_expiry_never_expires _ 7
    (Or.inl rfl)).2 [[("A", "1")]] "[\x22A\x22]" ["A"] rfl rfl (by decide)⟩

/-- Claim C6, counterexample: with a stored dataset, a non-decodable
field-selection string and an unexpired timestamp, `load` returns absent
but does NOT purge the stored tiers — the malformed config (and the bulk
dataset) are still present afterwards, contradicting the claim that all
tiers are purged. -/
theorem load_malformed_no_purge_counterexample :
    loadFromStorage (⟨some [[("A", "1")]], some "oops",
        some "9999999999999"⟩ : AppStorage) 0 =
      (none, ⟨some [[("A", "1")]], some "oops", some "9999999999999"⟩) ∧
    (loadFromStorage (⟨some [[("A", "1")]], some "oops",
        some "9999999999999"⟩ : AppStorage) 0).2.config ≠ none ∧
    (loadFromStorage (⟨some [[("A", "1")]], some "oops",
        some "9999999999999"⟩ : AppStorage) 0).2.db ≠ none := by
  refine ⟨by decide, by decide, by decide⟩

/-- Claim C6 as amended: if persisted data is present but the stored
field selection is not decodable, and the record is not expired, `load`
treats the stored state as absent — it returns "nothing stored" without
throwing — but it leaves the stored tiers exactly as they were
(no purge). -/
theorem load_malformed_treated_absent (st : AppStorage) (now : Nat)
    (cfg : String) (data : List Row) (hcfg : st.config = some cfg)
    (hdb : st.db = some data) (hbad : jsonParseFields cfg = none)
    (hfresh : (checkExpiry st now).1 = false) :
    loadFromStorage st now = (none, st) := by
  rw [loadFromStorage, checkExpiry_not_expired st now hfresh]
  rcases hie : cfg.data.isEmpty with _ | _
  · simp [hcfg, hdb, hie, hbad]
  · simp [hcfg, hdb, hie]

/-- Witness for the amended C6 at a concrete store. -/
theorem load_malformed_treated_absent_witness :
    (⟨some [[("A", "1")]], some "oops", some "9999999999999"⟩ :
        AppStorage).config = some "oops" ∧
    jsonParseFields "oops" = none ∧
    (checkExpiry (⟨some [[("A", "1")]], some "oops",
        some "9999999999999"⟩ : AppStorage) 0).1 = false ∧
    loadFromStorage (⟨some [[("A", "1")]], some "oops",
        some "9999999999999"⟩ : AppStorage) 0 =
      (none, ⟨some [[("A", "1")]], some "oops", some "9999999999999"⟩) :=
  ⟨rfl, by decide, by decide,
    load_malformed_treated_absent _ 0 "oops" [[("A", "1")]] rfl rfl
      (by decide) (by decide)⟩

/-! ### Claims about the Search & Filter Engine -/

/-- Claim C9: filtering with a term that trims to the empty string is the
identity on every dataset, for every field selection and scope. -/
theorem searchData_empty_term_identity (selFields : List String)
    (data : List Row) (term scope : String) (h : strTrim term = "") :
    searchData selFields data term scope = data := by
  rw [searchData, h]
  rfl

/-- Witness for C9 with a whitespace-only term. -/
theorem searchData_empty_term_identity_witness :
    strTrim "   " = "" ∧
    searchData ["Name"] [[("Name", "Alice")], [("Name", "Bob")]] "   " "all" =
      [[("Name", "Alice")], [("Name", "Bob")]] :=
  ⟨by decide, searchData_empty_term_identity ["Name"]
    [[("Name", "Alice")], [("Name", "Bob")]] "   " "all" (by decide)⟩

/-- Claim C1: for a non-empty, already-trimmed term, the filter operation
returns exactly the rows selected by the spec's matching rule — with
scope `"all"`, the rows where at least one field of the field selection
contains the (trimmed) term case-insensitively; with a specific-field
scope, the rows whose value in that field contains it — and the result is
a subsequence of the dataset in original order. -/
theorem searchData_matches_spec (selFields : List String) (data : List Row)
    (term scope : String) (htrim : strTrim term = term) (hne : term ≠ "") :
    searchData selFields data term scope =
      data.filter (specMatchRow selFields term scope) ∧
    List.Sublist (searchData selFields data term scope) data := by
  have hie : (strTrim term).data.isEmpty = false := by
    rw [htrim]
    exact data_isEmpty_false (string_ne_of_data_ne hne)
  have heq : searchData selFields data term scope =
      data.filter (specMatchRow selFields term scope) := by
    rw [searchData, hie]
    simp only [Bool.false_eq_true, if_false]
    apply List.filter_congr
    intro row _
    simp only [specMatchRow, specMatches, htrim]
  exact ⟨heq, heq ▸ List.filter_sublist data⟩

/-- Witness for C1 at the spec's own scenario: term `"a1"` in scope
`"Reg"` matches exactly the Alice row, in order. -/
theorem searchData_matches_spec_witness :
    strTrim "a1" = "a1" ∧ ("a1" : String) ≠ "" ∧
    (searchData ["Name", "Reg"]
        [[("Name", "Alice"), ("Reg", "A100")], [("Name", "Bob"), ("Reg", "B200")]]
        "a1" "Reg" =
      List.filter (specMatchRow ["Name", "Reg"] "a1" "Reg")
        [[("Name", "Alice"), ("Reg", "A100")], [("Name", "Bob"), ("Reg", "B200")]] ∧
    List.Sublist (searchData ["Name", "Reg"]
        [[("Name", "Alice"), ("Reg", "A100")], [("Name", "Bob"), ("Reg", "B200")]]
        "a1" "Reg")
      [[("Name", "Alice"), ("Reg", "A100")], [("Name", "Bob"), ("Reg", "B200")]]) :=
  ⟨by decide, by decide, searchData_matches_spec ["Name", "Reg"]
    [[("Name", "Alice"), ("Reg", "A100")], [("Name", "Bob"), ("Reg", "B200")]]
    "a1" "Reg" (by decide) (by decide)⟩

/-! ### Claims about the Incremental Card Renderer -/

/-- Claim C7: with 75 matches and page size 30, each page render shows the
first `currentPage * 30` matches cumulatively from the start, and the
Load More control is attached exactly when `matches.length` exceeds
`currentPage * 30`: the first render shows 30 cards with the control, one
activation shows 60 with the control, and a second activation shows all
75 and removes the control. -/
theorem pagination_75_rows (m : List Row) (f : List String) (t : String)
    (h : m.length = 75) :
    (∀ p : Nat, (renderCardsPage ⟨m, f, t, p⟩).cards =
        m.take (p * CARDS_PER_PAGE) ∧
      (renderCardsPage ⟨m, f, t, p⟩).loadMore =
        decide (m.length > p * CARDS_PER_PAGE)) ∧
    (renderCardsPage ⟨m, f, t, 1⟩).cards.length = 30 ∧
    (renderCardsPage ⟨m, f, t, 1⟩).loadMore = true ∧
    loadMoreClick ⟨m, f, t, 1⟩ = (⟨m, f, t, 2⟩, renderCardsPage ⟨m, f, t, 2⟩) ∧
    (renderCardsPage ⟨m, f, t, 2⟩).cards.length = 60 ∧
    (renderCardsPage ⟨m, f, t, 2⟩).loadMore = true ∧
    loadMoreClick ⟨m, f, t, 2⟩ = (⟨m, f, t, 3⟩, renderCardsPage ⟨m, f, t, 3⟩) ∧
    (renderCardsPage ⟨m, f, t, 3⟩).cards = m ∧
    (renderCardsPage ⟨m, f, t, 3⟩).loadMore = false := by
  refine ⟨fun p => ⟨rfl, rfl⟩, ?_, ?_, rfl, ?_, ?_, rfl, ?_, ?_⟩
  · show (m.take (1 * CARDS_PER_PAGE)).length = 30
    rw [List.length_take, h]
    rfl
  · show decide (m.length > 1 * CARDS_PER_PAGE) = true
    rw [h]
    rfl
  · show (m.take (2 * CARDS_PER_PAGE)).length = 60
    rw [List.length_take, h]
    rfl
  · show decide (m.length > 2 * CARDS_PER_PAGE) = true
    rw [h]
    rfl
  · show m.take (3 * CARDS_PER_PAGE) = m
    exact List.take_of_length_le (by rw [h]; norm_num [CARDS_PER_PAGE])
  · show decide (m.length > 3 * CARDS_PER_PAGE) = false
    rw [h]
    rfl

/-- Witness for C7 at a concrete 75-row match set. -/
theorem pagination_75_rows_witness :
    (List.replicate 75 ([] : Row)).length = 75 ∧
    (renderCardsPage ⟨List.replicate 75 ([] : Row), [], "", 1⟩).cards.length
      = 30 ∧
    (renderCardsPage ⟨List.replicate 75 ([] : Row), [], "", 3⟩).loadMore
      = false :=
  ⟨by simp,
    (pagination_75_rows (List.replicate 75 ([] : Row)) [] "" (by simp)).2.1,
    (pagination_75_rows (List.replicate 75 ([] : Row)) [] ""
      (by simp)).2.2.2.2.2.2.2.2⟩

/-- Claim C8, counterexample: a render request whose (changed) match set
is empty does NOT reset `currentPage` to 1 — the handler returns through
the no-matches branch before touching the cursor, so a stale page index
survives the request. Here the term changes from `"a"` to `"zzz"`, the new
match set is empty, and `currentPage` stays 2. -/
theorem renderCards_empty_no_reset_counterexample :
    renderMatches [[("Registration", "A100")]] ["Registration"] "zzz" = [] ∧
    (renderCards [[("Registration", "A100")]] ["Registration"] "zzz"
        ⟨[[("Registration", "A100")]], ["Registration"], "a", 2⟩).1.currentPage
      ≠ 1 := by
  refine ⟨by decide, by decide⟩

/-- Claim C8 as amended: a render request whose computed match set is
non-empty resets `currentPage` to 1 before rendering (so no render of a
new non-empty match set starts at a leftover page); a request whose match
set is empty renders nothing at all — it shows the no-matches indicator,
suppresses the Load More control and leaves the renderer state, including
the stale cursor, untouched. -/
theorem renderCards_resets_page (data : List Row) (fields : List String)
    (term : String) (st : RenderState) :
    (renderMatches data fields term ≠ [] →
      renderCards data fields term st =
        (⟨renderMatches data fields term, fields, term, 1⟩,
          { cards := (renderMatches data fields term).take
              (1 * CARDS_PER_PAGE),
            loadMore := decide ((renderMatches data fields term).length >
              1 * CARDS_PER_PAGE),
            noMatchesShown := false }) ∧
      (renderCards data fields term st).1.currentPage = 1) ∧
    (renderMatches data fields term = [] →
      renderCards data fields term st =
        (st, { cards := [], loadMore := false, noMatchesShown := true })) := by
  constructor
  · intro hne
    have hie : (renderMatches data fields term).isEmpty = false :=
      List.isEmpty_eq_false.mpr hne
    have heq : renderCards data fields term st =
        (⟨renderMatches data fields term, fields, term, 1⟩,
          { cards := (renderMatches data fields term).take
              (1 * CARDS_PER_PAGE),
            loadMore := decide ((renderMatches data fields term).length >
              1 * CARDS_PER_PAGE),
            noMatchesShown := false }) := by
      rw [renderCards, hie]
      rfl
    exact ⟨heq, by rw [heq]⟩
  · intro hnil
    rw [renderCards, hnil]
    rfl

/-- Witness for the amended C8: a non-empty match set resets the stale
cursor 2 back to 1. -/
theorem renderCards_resets_page_witness :
    renderMatches [[("Registration", "A100")]] ["Registration"] "a1" ≠ [] ∧
    (renderCards [[("Registration", "A100")]] ["Registration"] "a1"
        ⟨[[("Registration", "A100")]], ["Registration"], "a", 2⟩).1.currentPage
      = 1 ∧
    renderCards [[("Registration", "A100")]] ["Registration"] ""
        ⟨[], [], "", 2⟩ =
      (⟨[[("Registration", "A100")]], ["Registration"], "", 1⟩,
        { cards := [[("Registration", "A100")]], loadMore := false,
          noMatchesShown := false }) := by
  refine ⟨by decide, (renderCards_resets_page [[("Registration", "A100")]]
    ["Registration"] "a1" ⟨[[("Registration", "A100")]], ["Registration"],
      "a", 2⟩).1 (by decide) |>.2, ?_⟩
  have h := (renderCards_resets_page [[("Registration", "A100")]]
    ["Registration"] "" ⟨[], [], "", 2⟩).1 (by decide) |>.1
  rw [h]
  decide

end ExcelCard
